import Mathlib

/-!
Shallow embedding of `src/cusbc.py` (a thin wrapper around a vendor
`CUSBC.exe` controlling USB hub port power states).

Modelling conventions:
 - Python strings are modelled as `List Char` where character-level
   processing happens, and as `String` for opaque argument/output values.
 - Python functions that can raise `ValueError` during parsing are
   modelled as `Option`-valued (the parsers) or `Except PyErr`-valued
   (the controller operations).  `Python`-level exception *messages* are
   reproduced without their quote characters.
 - `int(s, base)` is modelled on the domain actually exercised by the
   program: digit-only strings (Python additionally tolerates signs,
   whitespace and underscores, which never occur here); an empty or
   non-digit string parses to `none` (Python raises `ValueError`).
 - The external process is an oracle `Exec` mapping an argument vector to
   either an output string (already stripped, as `_run_command` strips
   stdout) or an error (modelling a raised exception such as a spawn
   failure).  Controller operations return both their result and the list
   of argument vectors of the process invocations they issued.
-/

/-- Python `s.zfill(w)`: left-pad with zero characters up to width `w`
(no sign handling; the inputs here never carry signs). -/
def zfill (w : Nat) (s : List Char) : List Char :=
  List.replicate (w - s.length) '0' ++ s

/-- Is `c` a hexadecimal digit (as accepted by Python `int(_, 16)`)? -/
def isHexDigit (c : Char) : Bool :=
  (48 ≤ c.toNat && c.toNat ≤ 57) || (97 ≤ c.toNat && c.toNat ≤ 102) ||
    (65 ≤ c.toNat && c.toNat ≤ 70)

/-- Numeric value of a hexadecimal digit character (0 for non-digits;
only applied to valid digits). -/
def hexDigitVal (c : Char) : Nat :=
  if 48 ≤ c.toNat && c.toNat ≤ 57 then c.toNat - 48
  else if 97 ≤ c.toNat && c.toNat ≤ 102 then c.toNat - 87
  else if 65 ≤ c.toNat && c.toNat ≤ 70 then c.toNat - 55
  else 0

/-- Is `c` a decimal digit? -/
def isDecDigit (c : Char) : Bool :=
  48 ≤ c.toNat && c.toNat ≤ 57

/-- Python `int(s, 16)` on digit-only strings: `none` on the empty string
or any non-hex-digit character (Python raises `ValueError` there). -/
def parseHex (s : List Char) : Option Nat :=
  if s.isEmpty then none
  else if s.all isHexDigit then
    some (s.foldl (fun acc c => 16 * acc + hexDigitVal c) 0)
  else none

/-- Python `int(s)` (base 10) on digit-only strings. -/
def parseDec (s : List Char) : Option Nat :=
  if s.isEmpty then none
  else if s.all isDecDigit then
    some (s.foldl (fun acc c => 10 * acc + (c.toNat - 48)) 0)
  else none

/-- Python `int(s, 2)` on binary-digit strings. -/
def parseBin (s : List Char) : Option Nat :=
  if s.isEmpty then none
  else if s.all (fun c => c == '0' || c == '1') then
    some (s.foldl (fun acc c => 2 * acc + (if c == '1' then 1 else 0)) 0)
  else none

/-- Split a character list into consecutive 2-character slices, the way
`hex_state[i:i+2]` for `i in range(0, len, 2)` does (a trailing slice of
length 1 can only arise on odd-length input, which padding rules out). -/
def pairs : List Char → List (List Char)
  | [] => []
  | [c] => [[c]]
  | a :: b :: rest => [a, b] :: pairs rest

/-- Python `s.split(",")`: split on every comma, keeping empty pieces
(so the empty string yields one empty piece). Auxiliary accumulator form. -/
def splitCommaAux : List Char → List Char → List (List Char)
  | [], acc => [acc.reverse]
  | c :: rest, acc =>
      if c = ',' then acc.reverse :: splitCommaAux rest []
      else splitCommaAux rest (c :: acc)

/-- Python `s.split(",")`. -/
def splitComma (s : List Char) : List (List Char) :=
  splitCommaAux s []

/-- `PortState.from_bitmapped` (src/cusbc.py:19-22): reverse the string,
map each character to a boolean with only the one character mapped to
true.  Total: never raises. -/
def from_bitmapped (bitmapped : List Char) : List Bool :=
  bitmapped.reverse.map (fun state => state == '1')

/-- The per-byte expansion inside `PortState.from_hex`
(src/cusbc.py:37-40): `bin(n)[2:].zfill(8)[::-1]`, then map to booleans.
`Nat.toDigits 2 n` renders exactly like Python `bin(n)[2:]`. -/
def byteBits (n : Nat) : List Bool :=
  ((zfill 8 (Nat.toDigits 2 n)).reverse).map (fun bit => bit == '1')

/-- The byte loop of `PortState.from_hex` (src/cusbc.py:31-40): each
2-character slice is parsed base 16 and expanded; a slice that fails to
parse raises (modelled `none`). -/
def from_hexBytes : List (List Char) → Option (List Bool)
  | [] => some []
  | byte :: rest =>
      match parseHex byte with
      | none => none
      | some n =>
          match from_hexBytes rest with
          | none => none
          | some bits => some (byteBits n ++ bits)

/-- `PortState.from_hex` (src/cusbc.py:24-42): pad to even length with
`zfill(len + len % 2)`, then expand each 2-character byte. -/
def from_hex (hex_state : List Char) : Option (List Bool) :=
  from_hexBytes (pairs (zfill (hex_state.length + hex_state.length % 2) hex_state))

/-- The shared first step of `CUSBC.set_port_states`'s encoder
(src/cusbc.py:131-136): reverse the state, render booleans as characters. -/
def encodeWire (state : List Bool) : List Char :=
  state.reverse.map (fun s => if s then '1' else '0')

/-- The bit-mapped (`mode == "B"`) branch of `set_port_states`'s encoder
(src/cusbc.py:134-136). -/
def encodeBitmapped (state : List Bool) : List Char :=
  encodeWire state

/-- The hex (`mode == "H"`) branch of `set_port_states`'s encoder
(src/cusbc.py:137-139): `hex(int(bits, 2))[2:]`; `none` models the
`ValueError` that `int("", 2)` raises on the empty state.
`Nat.toDigits 16 n` renders exactly like Python `hex(n)[2:]` (lowercase). -/
def encodeHex (state : List Bool) : Option (List Char) :=
  (parseBin (encodeWire state)).map (fun n => Nat.toDigits 16 n)

/-- The composite the spec's round-trip property talks about:
`decodeHex(encodeHex(v))[:len(v)]`. -/
def hexRoundTrip (v : List Bool) : Option (List Bool) :=
  match encodeHex v with
  | none => none
  | some s =>
      match from_hex s with
      | none => none
      | some bits => some (bits.take v.length)

/-- Python-level exceptions raised by the embedded code: `ValueError`
with a message (quote characters elided), or an OS-level failure raised
by `subprocess.run` itself (e.g. spawn failure). -/
inductive PyErr where
  | valueError (msg : String)
  | osError
deriving DecidableEq

/-- `HubInfo` (src/cusbc.py:8-14). -/
structure HubInfo where
  port : String
  num_ports : Nat
  firmware_version : String
  port_states : List Bool
deriving DecidableEq

/-- The mutable state of a `CUSBC` instance (src/cusbc.py:54-55):
selected port and optional password. -/
structure Ctl where
  port : String
  password : Option String
deriving DecidableEq

/-- The external process as an oracle: argument vector to stripped stdout,
or a raised exception. -/
abbrev Exec := List String → Except PyErr String

/-- Python truthiness of the optional password field: `if self.password:`
is false for `None` and for the empty string. -/
def truthy : Option String → Bool
  | none => false
  | some s => !s.isEmpty

/-- The encoding stage of `CUSBC.set_port_states` (src/cusbc.py:131-141):
mode dispatch, with the `ValueError` branches. -/
def encodeState (state : List Bool) (mode : String) : Except PyErr (List Char) :=
  if mode = "B" then .ok (encodeBitmapped state)
  else if mode = "H" then
    match encodeHex state with
    | some s => .ok s
    | none => .error (.valueError "invalid literal for int() with base 2")
  else .error (.valueError "Invalid mode: choose B for bit-mapped or H for hex.")

/-- `CUSBC.set_port_states` (src/cusbc.py:124-149): encode, build the
argument vector (password only when truthy), invoke the process, discard
its output.  Returns the result and the issued invocations. -/
def set_port_states (exec : Exec) (c : Ctl) (state : List Bool) (mode : String) :
    Except PyErr Unit × List (List String) :=
  match encodeState state mode with
  | .error e => (.error e, [])
  | .ok state_str =>
      let args := ["/S:" ++ c.port] ++
        (if truthy c.password then [c.password.getD ""] else []) ++
        [mode ++ ":" ++ String.mk state_str]
      match exec args with
      | .error e => (.error e, [args])
      | .ok _ => (.ok (), [args])

/-- `CUSBC.save_initial_states` (src/cusbc.py:151-155). -/
def save_initial_states (exec : Exec) (c : Ctl) :
    Except PyErr Unit × List (List String) :=
  if truthy c.password then
    let args := ["/W:" ++ c.port, c.password.getD ""]
    match exec args with
    | .error e => (.error e, [args])
    | .ok _ => (.ok (), [args])
  else (.error (.valueError "Password is required for this operation."), [])

/-- `CUSBC.restore_factory_defaults` (src/cusbc.py:157-161). -/
def restore_factory_defaults (exec : Exec) (c : Ctl) :
    Except PyErr Unit × List (List String) :=
  if truthy c.password then
    let args := ["/D:" ++ c.port, c.password.getD ""]
    match exec args with
    | .error e => (.error e, [args])
    | .ok _ => (.ok (), [args])
  else (.error (.valueError "Password is required for this operation."), [])

/-- `CUSBC.reset_hub` (src/cusbc.py:163-167). -/
def reset_hub (exec : Exec) (c : Ctl) :
    Except PyErr Unit × List (List String) :=
  if truthy c.password then
    let args := ["/R:" ++ c.port, c.password.getD ""]
    match exec args with
    | .error e => (.error e, [args])
    | .ok _ => (.ok (), [args])
  else (.error (.valueError "Password is required for this operation."), [])

/-- `CUSBC.change_password` (src/cusbc.py:169-174).  The assignment
`self.password = new_password` happens only after `_run_command` returned
normally, so the resulting controller state is also returned. -/
def change_password (exec : Exec) (c : Ctl) (new_password : String) :
    Except PyErr Unit × List (List String) × Ctl :=
  if truthy c.password then
    let args := ["/P:" ++ c.port, c.password.getD "", new_password]
    match exec args with
    | .error e => (.error e, [args], c)
    | .ok _ => (.ok (), [args], ⟨c.port, some new_password⟩)
  else (.error (.valueError "Current password is required."), [], c)

/-- `CUSBC.query_hub_info` (src/cusbc.py:94-107): `int(output[8:10], 16)`
first (its failure raises before the dict is built), then
`from_hex(output[:8])[:num_ports]`, firmware is `output[10:]`. -/
def query_hub_info (exec : Exec) (port : String) :
    Except PyErr HubInfo × List (List String) :=
  let args := ["/Q:" ++ port, "-F"]
  match exec args with
  | .error e => (.error e, [args])
  | .ok output =>
      match parseHex ((output.data.drop 8).take 2) with
      | none => (.error (.valueError "invalid literal for int() with base 16"), [args])
      | some num_ports =>
          match from_hex (output.data.take 8) with
          | none => (.error (.valueError "invalid literal for int() with base 16"), [args])
          | some bits =>
              (.ok ⟨port, num_ports, String.mk (output.data.drop 10), bits.take num_ports⟩,
                [args])

/-- The parsing stage of `CUSBC.query_hubs` (src/cusbc.py:84-85):
`int(output[:4])` and `output[4:].split(",")`. -/
def parseQueryAll (output : String) : Option (Nat × List String) :=
  match parseDec (output.data.take 4) with
  | none => none
  | some n => some (n, (splitComma (output.data.drop 4)).map String.mk)

/-- The per-port loop of `CUSBC.query_hubs` (src/cusbc.py:87-90): query
each listed port, collecting hubs; the first raised error propagates. -/
def query_hubs_go (exec : Exec) : List String → Except PyErr (List HubInfo) × List (List String)
  | [] => (.ok [], [])
  | p :: ps =>
      match query_hub_info exec p with
      | (.error e, inv) => (.error e, inv)
      | (.ok h, inv) =>
          match query_hubs_go exec ps with
          | (.error e, invs) => (.error e, inv ++ invs)
          | (.ok hs, invs) => (.ok (h :: hs), inv ++ invs)

/-- `CUSBC.query_hubs` (src/cusbc.py:77-92).  Note: the declared count is
parsed (and its parse failure raises) but is never compared against the
number of listed ports. -/
def query_hubs (exec : Exec) : Except PyErr (List HubInfo) × List (List String) :=
  let args := ["/Q", "-F"]
  match exec args with
  | .error e => (.error e, [args])
  | .ok output =>
      match parseQueryAll output with
      | none => (.error (.valueError "invalid literal for int() with base 10"), [args])
      | some (_hub_count, ports) =>
          match query_hubs_go exec ports with
          | (r, invs) => (r, args :: invs)

/-- `CUSBC.find_available_port` (src/cusbc.py:65-75). -/
def find_available_port (exec : Exec) : Except PyErr String × List (List String) :=
  match query_hubs exec with
  | (.error e, invs) => (.error e, invs)
  | (.ok hubs, invs) =>
      match hubs with
      | [] => (.error (.valueError "No available USB hub found."), invs)
      | h :: _ => (.ok h.port, invs)

/-! ### Reference models written from the specification's words
(for the refinement claims, to be compared with the source embeddings). -/

/-- Reference bit-mapped decoder, from the spec's words: "reverse the
character sequence, map each character to boolean, preserving order after
reversal" — written as snoc recursion: the first output element is the
last character. -/
def from_bitmappedSpec : List Char → List Bool
  | [] => []
  | c :: rest => from_bitmappedSpec rest ++ [decide (c = '1')]

/-- Reference base-16 parse, from the spec's words "parse as integer
base 16": positional value, most significant digit first. -/
def parseHexSpecVal : List Char → Nat
  | [] => 0
  | c :: rest => hexDigitVal c * 16 ^ rest.length + parseHexSpecVal rest

/-- Reference base-16 parse with the same failure domain as Python
`int(_, 16)` on digit strings. -/
def parseHexSpec (s : List Char) : Option Nat :=
  if s.isEmpty then none
  else if s.all isHexDigit then some (parseHexSpecVal s)
  else none

/-- Reference per-byte expansion, from the spec's words: "render as 8-bit
binary string (zero-padded), reverse character order, map to booleans" —
i.e. the eight bits of the byte, least significant first. -/
def specByteBits (n : Nat) : List Bool :=
  (List.range 8).map (fun i => n.testBit i)

/-- Reference byte loop: "for each 2-character byte, left-to-right". -/
def specBytes : List Char → Option (List Bool)
  | [] => some []
  | a :: b :: rest =>
      match parseHexSpec [a, b] with
      | none => none
      | some n =>
          match specBytes rest with
          | none => none
          | some bits => some (specByteBits n ++ bits)
  | [_] => none

/-- Reference hex decoder, from the spec's words: "if the hex string has
odd length, left-pad with a single zero character", then the byte loop. -/
def from_hexSpec (s : List Char) : Option (List Bool) :=
  specBytes (if s.length % 2 = 1 then '0' :: s else s)

/-! ### Concrete process oracles used by closed theorems. -/

/-- An oracle whose every invocation succeeds with empty output. -/
def execOk : Exec := fun _ => .ok ""

/-- An oracle whose every invocation raises. -/
def execFail : Exec := fun _ => .error .osError

/-- Oracle for the well-formed query-all scenario: two hubs, declared
count 2, each per-port query well-formed (4 ports, state byte F8). -/
def execTwoHubs : Exec := fun args =>
  if args = ["/Q", "-F"] then .ok "0002COM3,COM4"
  else if args = ["/Q:COM3", "-F"] then .ok "F800000004v1.0"
  else if args = ["/Q:COM4", "-F"] then .ok "F100000004v1.1"
  else .error .osError

/-- Oracle identical to `execTwoHubs` except that the query-all output
declares count 3 while listing two ports (a count mismatch). -/
def execMismatch : Exec := fun args =>
  if args = ["/Q", "-F"] then .ok "0003COM3,COM4"
  else if args = ["/Q:COM3", "-F"] then .ok "F800000004v1.0"
  else if args = ["/Q:COM4", "-F"] then .ok "F100000004v1.1"
  else .error .osError

/-- Oracle for the single-hub discovery scenario. -/
def execOneHub : Exec := fun args =>
  if args = ["/Q", "-F"] then .ok "0001COM7"
  else if args = ["/Q:COM7", "-F"] then .ok "0300000002v2.0"
  else .error .osError

/-! ### Helper lemmas. -/

/-- Rendering a boolean as a bit character and testing it against the one
character is the identity. -/
theorem boolChar_beq_one (b : Bool) : ((if b then '1' else '0') == '1') = b := by
  cases b <;> decide

/-- Char `==` agrees with propositional equality (via `LawfulBEq`). -/
theorem char_beq_eq_decide (c d : Char) : (c == d) = decide (c = d) := by
  by_cases h : c = d <;> simp [h]

/-- The bit-mapped decoder on a cons: the head character lands at the end. -/
theorem from_bitmapped_cons (c : Char) (rest : List Char) :
    from_bitmapped (c :: rest) = from_bitmapped rest ++ [c == '1'] := by
  simp [from_bitmapped]

/-- The source bit-mapped decoder coincides with the spec's reference
formulation. -/
theorem from_bitmapped_eq_spec (s : List Char) :
    from_bitmapped s = from_bitmappedSpec s := by
  induction s with
  | nil => rfl
  | cons c rest ih =>
      rw [from_bitmapped_cons, ih, from_bitmappedSpec, char_beq_eq_decide]

/-! ### Claim C2. -/

/-- Claim C2: for every boolean sequence `v` of length at most 32, the
bit-mapped decoder inverts the bit-mapped branch of the
`set_port_states` encoder: `from_bitmapped (encodeBitmapped v) = v`. -/
theorem c2_bitmapped_round_trip (v : List Bool) (_h : v.length ≤ 32) :
    from_bitmapped (encodeBitmapped v) = v := by
  simp only [from_bitmapped, encodeBitmapped, encodeWire, List.map_reverse,
    List.reverse_reverse, List.map_map]
  have h2 : ∀ b ∈ v,
      ((fun state => state == '1') ∘ fun s : Bool => if s then '1' else '0') b = id b :=
    fun b _ => by cases b <;> rfl
  rw [List.map_congr_left h2, List.map_id]

/-- Witness for C2 at a concrete sequence of length 3. -/
theorem c2_bitmapped_round_trip_witness :
    from_bitmapped (encodeBitmapped [true, false, true]) = [true, false, true] :=
  c2_bitmapped_round_trip [true, false, true] (by decide)

/-! ### Claim C7. -/

/-- Claim C7: the bit-mapped decoder reverses the character sequence and
maps the one character to true (here: it equals the spec's reference
formulation `from_bitmappedSpec`, in which the first output element comes
from the last character); the empty input yields the empty sequence, and
`from_bitmapped "0010" = [false, true, false, false]`. -/
theorem c7_from_bitmapped_conformance :
    (∀ s : List Char, from_bitmapped s = from_bitmappedSpec s) ∧
    from_bitmapped [] = [] ∧
    from_bitmapped ['0', '0', '1', '0'] = [false, true, false, false] :=
  ⟨from_bitmapped_eq_spec, rfl, by decide⟩

/-! ### Claim C10. -/

/-- Claim C10: the bit-mapped decoder is total on arbitrary strings (its
embedding is a total function): the output length always equals the input
length, position `i` of the output is true exactly when character
`length - 1 - i` of the input is the one character (so every non-`'1'`
character, not only `'0'`, maps to false), and on the concrete non-binary
input "2X01" it yields `[true, false, false, false]`. -/
theorem c10_from_bitmapped_total :
    (∀ s : List Char, (from_bitmapped s).length = s.length) ∧
    (∀ (s : List Char) (i : Nat), i < s.length →
      (from_bitmapped s)[i]? = (s[s.length - 1 - i]?).map (fun c => c == '1')) ∧
    from_bitmapped ['2', 'X', '0', '1'] = [true, false, false, false] := by
  refine ⟨fun s => by simp [from_bitmapped], fun s i hi => ?_, by decide⟩
  unfold from_bitmapped
  rw [List.getElem?_map, List.getElem?_reverse hi]

/-- Witness for C10's pointwise part at a concrete non-binary string and
in-range index. -/
theorem c10_from_bitmapped_total_witness :
    (from_bitmapped ['2', 'X', '0', '1'])[3]? =
      ((['2', 'X', '0', '1'] : List Char)[0]?).map (fun c => c == '1') :=
  c10_from_bitmapped_total.2.1 ['2', 'X', '0', '1'] 3 (by decide)

/-! ### Claim C1 (corrected). -/

/-- Counterexample to C1 as stated: for the byte-aligned sequence
`v = [true] ++ [false] * 15` (length 16, a multiple of 8), the hex
encoder renders the reversed bit string as the number 1 and emits the
single digit "1"; decoding that yields only one byte (8 booleans), so
`decodeHex(encodeHex(v))[:16]` has length 8 and differs from `v`. -/
theorem c1_counterexample :
    hexRoundTrip [true, false, false, false, false, false, false, false,
      false, false, false, false, false, false, false, false] ≠
      some [true, false, false, false, false, false, false, false,
        false, false, false, false, false, false, false, false] := by
  decide

/-- Claim C1 amended: the hex round trip holds exactly as claimed for
byte-aligned sequences of length 8 (one byte).  For longer byte-aligned
sequences it fails in general: the encoder emits the highest-port byte
first and drops leading zero bytes, while the decoder reads the first
byte of its input as ports 0 to 7. -/
theorem c1_hex_round_trip_one_byte (v : List Bool) (hv : v.length = 8) :
    hexRoundTrip v = some v := by
  rcases v with _ | ⟨a, v⟩; · simp at hv
  rcases v with _ | ⟨b, v⟩; · simp at hv
  rcases v with _ | ⟨c, v⟩; · simp at hv
  rcases v with _ | ⟨d, v⟩; · simp at hv
  rcases v with _ | ⟨e, v⟩; · simp at hv
  rcases v with _ | ⟨f, v⟩; · simp at hv
  rcases v with _ | ⟨g, v⟩; · simp at hv
  rcases v with _ | ⟨h8, v⟩; · simp at hv
  rcases v with _ | ⟨i, v⟩
  · revert a b c d e f g h8; decide
  · simp at hv

/-- Witness for the amended C1 at a concrete length-8 sequence. -/
theorem c1_hex_round_trip_one_byte_witness :
    hexRoundTrip [true, false, false, true, false, false, false, true] =
      some [true, false, false, true, false, false, false, true] :=
  c1_hex_round_trip_one_byte
    [true, false, false, true, false, false, false, true] (by decide)

/-! ### Claim C4 (corrected). -/

/-- Counterexample to C4 as stated: with the password unset, a valid mode
and a boolean state, `set_port_states` raises nothing (`MissingCredential`
in particular) and issues exactly one process invocation, whose argument
vector simply omits the password. -/
theorem c4_counterexample :
    set_port_states execOk ⟨"COM1", none⟩ [false, false, true, false] "B" =
      (.ok (), [["/S:COM1", "B:0100"]]) := by
  rfl

/-- Claim C4 amended: `set_port_states` does not require a password.  For
every oracle, port, state and valid mode ("B", or "H" with a nonempty
state, since the hex branch raises on the empty state), calling it with
the password unset encodes successfully and issues exactly one process
invocation `[/S:port, mode:encodedState]` with no password element and no
`MissingCredential`: the call's outcome is exactly the invocation's. -/
theorem c4_set_no_password_invokes (exec : Exec) (port : String)
    (state : List Bool) (mode : String)
    (h : mode = "B" ∨ (mode = "H" ∧ state ≠ [])) :
    (encodeState state mode).isOk = true ∧
    set_port_states exec ⟨port, none⟩ state mode =
      ((exec ["/S:" ++ port,
          mode ++ ":" ++ String.mk ((encodeState state mode).toOption.getD [])]).map
          (fun _ => ()),
        [["/S:" ++ port,
          mode ++ ":" ++ String.mk ((encodeState state mode).toOption.getD [])]]) := by
  have henc : ∃ s, encodeState state mode = .ok s := by
    rcases h with rfl | ⟨rfl, hne⟩
    · exact ⟨encodeBitmapped state, by simp [encodeState]⟩
    · have hb : ∃ n, parseBin (encodeWire state) = some n := by
        refine ⟨(encodeWire state).foldl
          (fun acc c => 2 * acc + (if c == '1' then 1 else 0)) 0, ?_⟩
        have hne' : (encodeWire state).isEmpty = false := by
          simp [encodeWire, List.isEmpty_iff, hne]
        have hall : (encodeWire state).all (fun c => c == '0' || c == '1') = true := by
          refine List.all_eq_true.mpr (fun c hc => ?_)
          simp only [encodeWire, List.mem_map, List.mem_reverse] at hc
          obtain ⟨b, _, rfl⟩ := hc
          cases b <;> rfl
        simp [parseBin, hne', hall]
      obtain ⟨n, hn⟩ := hb
      exact ⟨Nat.toDigits 16 n, by simp [encodeState, encodeHex, hn]⟩
  obtain ⟨s, hs⟩ := henc
  refine ⟨by simp [hs, Except.isOk, Except.toBool], ?_⟩
  simp only [set_port_states, hs, truthy, Except.toOption]
  cases hexec : exec ["/S:" ++ port, mode ++ ":" ++ String.mk s] <;>
    simp_all [Except.map]

/-- Witness for the amended C4: hex mode, failing oracle, concrete state. -/
theorem c4_set_no_password_invokes_witness :
    set_port_states execFail ⟨"COM2", none⟩ [true] "H" =
      (.error .osError, [["/S:COM2", "H:1"]]) := by
  exact (c4_set_no_password_invokes execFail "COM2" [true] "H"
    (Or.inr ⟨rfl, by decide⟩)).2

/-! ### Claim C6 (confirmed). -/

/-- Claim C6: `change_password` updates the stored password to the new
value only after the process invocation returns normally; whenever the
call raises (missing credential, or any error raised by the invocation),
the stored password is unchanged. -/
theorem c6_change_password_updates_after_success (exec : Exec) (port : String)
    (pw : Option String) (new_password : String) :
    (∀ e : PyErr, (change_password exec ⟨port, pw⟩ new_password).1 = .error e →
      ((change_password exec ⟨port, pw⟩ new_password).2.2).password = pw) ∧
    ((change_password exec ⟨port, pw⟩ new_password).1 = .ok () →
      ((change_password exec ⟨port, pw⟩ new_password).2.2).password = some new_password) := by
  cases htr : truthy pw
  · simp [change_password, htr]
  · cases hexec : exec ["/P:" ++ port, pw.getD "", new_password] <;>
      simp [change_password, htr, hexec]

/-- Witness for C6: a failing invocation leaves the password, a
successful one replaces it. -/
theorem c6_change_password_updates_after_success_witness :
    ((change_password execFail ⟨"COM1", some "old"⟩ "new").2.2).password = some "old" ∧
    ((change_password execOk ⟨"COM1", some "old"⟩ "new").2.2).password = some "new" :=
  ⟨(c6_change_password_updates_after_success execFail "COM1" (some "old") "new").1
      .osError rfl,
    (c6_change_password_updates_after_success execOk "COM1" (some "old") "new").2 rfl⟩

/-! ### Claim C8 (corrected). -/

/-- Counterexample to C8 as stated: the password `some ""` is set (not
unset), yet `save_initial_states` raises `MissingCredential` and issues
no invocation, because the source tests Python truthiness
(`if not self.password:`), which the empty string fails. -/
theorem c8_counterexample :
    save_initial_states execOk ⟨"COM1", some ""⟩ =
      (.error (.valueError "Password is required for this operation."), []) := by
  rfl

/-- Claim C8 amended: each of the four credential-requiring operations
raises `MissingCredential` and issues no invocation when the password is
unset *or set to the empty string* (Python falsiness), and with a
nonempty password proceeds to issue exactly its one process invocation,
whose outcome is the call's outcome. -/
theorem c8_credential_gate (exec : Exec) (c : Ctl) (new_password : String) :
    (truthy c.password = false →
      save_initial_states exec c =
        (.error (.valueError "Password is required for this operation."), []) ∧
      restore_factory_defaults exec c =
        (.error (.valueError "Password is required for this operation."), []) ∧
      reset_hub exec c =
        (.error (.valueError "Password is required for this operation."), []) ∧
      change_password exec c new_password =
        (.error (.valueError "Current password is required."), [], c)) ∧
    (truthy c.password = true →
      save_initial_states exec c =
        ((exec ["/W:" ++ c.port, c.password.getD ""]).map (fun _ => ()),
          [["/W:" ++ c.port, c.password.getD ""]]) ∧
      restore_factory_defaults exec c =
        ((exec ["/D:" ++ c.port, c.password.getD ""]).map (fun _ => ()),
          [["/D:" ++ c.port, c.password.getD ""]]) ∧
      reset_hub exec c =
        ((exec ["/R:" ++ c.port, c.password.getD ""]).map (fun _ => ()),
          [["/R:" ++ c.port, c.password.getD ""]]) ∧
      (change_password exec c new_password).1 =
        (exec ["/P:" ++ c.port, c.password.getD "", new_password]).map (fun _ => ()) ∧
      (change_password exec c new_password).2.1 =
        [["/P:" ++ c.port, c.password.getD "", new_password]]) := by
  constructor
  · intro htr
    simp [save_initial_states, restore_factory_defaults, reset_hub,
      change_password, htr]
  · intro htr
    refine ⟨?_, ?_, ?_, ?_, ?_⟩
    · cases hexec : exec ["/W:" ++ c.port, c.password.getD ""] <;>
        simp [save_initial_states, htr, hexec, Except.map]
    · cases hexec : exec ["/D:" ++ c.port, c.password.getD ""] <;>
        simp [restore_factory_defaults, htr, hexec, Except.map]
    · cases hexec : exec ["/R:" ++ c.port, c.password.getD ""] <;>
        simp [reset_hub, htr, hexec, Except.map]
    · cases hexec : exec ["/P:" ++ c.port, c.password.getD "", new_password] <;>
        simp [change_password, htr, hexec, Except.map]
    · cases hexec : exec ["/P:" ++ c.port, c.password.getD "", new_password] <;>
        simp [change_password, htr, hexec, Except.map]

/-- Witness for the amended C8 with a nonempty password and a failing
oracle. -/
theorem c8_credential_gate_witness :
    save_initial_states execFail ⟨"COM1", some "pw"⟩ =
      (.error .osError, [["/W:COM1", "pw"]]) := by
  exact ((c8_credential_gate execFail ⟨"COM1", some "pw"⟩ "x").2 rfl).1

/-! ### Claim C9 (confirmed). -/

/-- Claim C9: whenever `query_hubs` returns a hub list,
`find_available_port` returns the first hub's port identifier, and raises
`NoHubFound` exactly when that list is empty. -/
theorem c9_find_available_port (exec : Exec) (hubs : List HubInfo)
    (invs : List (List String)) (h : query_hubs exec = (.ok hubs, invs)) :
    (hubs = [] →
      find_available_port exec =
        (.error (.valueError "No available USB hub found."), invs)) ∧
    (∀ (hd : HubInfo) (tl : List HubInfo), hubs = hd :: tl →
      find_available_port exec = (.ok hd.port, invs)) := by
  constructor
  · intro he
    subst he
    simp [find_available_port, h]
  · intro hd tl he
    subst he
    simp [find_available_port, h]

/-- Witness for C9: a one-hub oracle, discovery returns its port. -/
theorem c9_find_available_port_witness :
    find_available_port execOneHub =
      (.ok "COM7", [["/Q", "-F"], ["/Q:COM7", "-F"]]) := by
  exact (c9_find_available_port execOneHub
      [⟨"COM7", 2, "v2.0", [true, true]⟩]
      [["/Q", "-F"], ["/Q:COM7", "-F"]] rfl).2
    ⟨"COM7", 2, "v2.0", [true, true]⟩ [] rfl

/-! ### Claim C5 (corrected). -/

/-- Counterexample to C5 as stated: on the query-all output
"0003COM3,COM4" the declared count (3) mismatches the two listed
identifiers, yet `query_hubs` raises nothing: the source never compares
the parsed count against the list, and simply returns one hub per listed
identifier. -/
theorem c5_counterexample :
    parseQueryAll "0003COM3,COM4" = some (3, ["COM3", "COM4"]) ∧
    (["COM3", "COM4"] : List String).length ≠ 3 ∧
    (query_hubs execMismatch).1 =
      .ok [⟨"COM3", 4, "v1.0", [false, false, false, true]⟩,
        ⟨"COM4", 4, "v1.1", [true, false, false, false]⟩] := by
  refine ⟨rfl, by decide, rfl⟩

/-- Claim C5 amended: `query_hubs` parses a 4-character decimal count
followed by the comma-separated identifier list — on "0002COM3,COM4" the
parse yields declared count 2 and identifiers ["COM3", "COM4"], and the
full query returns those two hubs — but the declared count is never
validated: whenever the count parses at all, the result of `query_hubs`
is exactly the per-port fold over the listed identifiers, independent of
the declared count, and no `InvalidFormat` error is raised for a
mismatch. -/
theorem c5_query_hubs_parse_no_validation :
    parseQueryAll "0002COM3,COM4" = some (2, ["COM3", "COM4"]) ∧
    query_hubs execTwoHubs =
      (.ok [⟨"COM3", 4, "v1.0", [false, false, false, true]⟩,
        ⟨"COM4", 4, "v1.1", [true, false, false, false]⟩],
        [["/Q", "-F"], ["/Q:COM3", "-F"], ["/Q:COM4", "-F"]]) ∧
    (∀ (exec : Exec) (output : String) (cnt : Nat) (ports : List String),
      exec ["/Q", "-F"] = .ok output →
      parseQueryAll output = some (cnt, ports) →
      query_hubs exec =
        ((query_hubs_go exec ports).1,
          ["/Q", "-F"] :: (query_hubs_go exec ports).2)) := by
  refine ⟨rfl, rfl, fun exec output cnt ports h1 h2 => ?_⟩
  simp only [query_hubs, h1, h2]

/-- Witness for the amended C5's general part at the mismatched oracle:
the declared count 3 plays no role in the result. -/
theorem c5_query_hubs_parse_no_validation_witness :
    query_hubs execMismatch =
      ((query_hubs_go execMismatch ["COM3", "COM4"]).1,
        ["/Q", "-F"] :: (query_hubs_go execMismatch ["COM3", "COM4"]).2) :=
  c5_query_hubs_parse_no_validation.2.2 execMismatch "0003COM3,COM4" 3
    ["COM3", "COM4"] rfl rfl

/-! ### Claim C3 (confirmed): helper lemmas about the hex decoder. -/

/-- The source's padding `zfill(len + len % 2)` is exactly the spec's
"left-pad with a single zero character when the length is odd". -/
theorem pad_eq (s : List Char) :
    zfill (s.length + s.length % 2) s = if s.length % 2 = 1 then '0' :: s else s := by
  rcases Nat.mod_two_eq_zero_or_one s.length with h | h <;> simp [zfill, h]

/-- The padded string always has even length. -/
theorem padded_even (s : List Char) :
    (if s.length % 2 = 1 then '0' :: s else s).length % 2 = 0 := by
  rcases Nat.mod_two_eq_zero_or_one s.length with h | h
  · simp [h]
  · simp [h]
    omega

/-- On an even-length string every 2-character slice has length 2. -/
theorem pairs_length_two : ∀ (l : List Char), l.length % 2 = 0 →
    ∀ p ∈ pairs l, p.length = 2 := by
  intro l
  induction l using pairs.induct with
  | case1 => intro _ p hp; simp [pairs] at hp
  | case2 c => intro h; simp at h
  | case3 a b rest ih =>
      intro h p hp
      simp only [pairs, List.mem_cons] at hp
      rcases hp with rfl | hp
      · rfl
      · refine ih ?_ p hp
        simp only [List.length_cons] at h
        omega

/-- A hexadecimal digit has value below 16. -/
theorem hexDigitVal_lt (c : Char) (h : isHexDigit c = true) : hexDigitVal c < 16 := by
  simp only [isHexDigit, Bool.or_eq_true, Bool.and_eq_true, decide_eq_true_eq] at h
  unfold hexDigitVal
  split_ifs with h1 h2 h3 <;> simp_all <;> omega

/-- `parseHex` on a valid 2-digit slice. -/
theorem parseHex_pair (a b : Char) (ha : isHexDigit a = true)
    (hb : isHexDigit b = true) :
    parseHex [a, b] = some (16 * hexDigitVal a + hexDigitVal b) := by
  simp [parseHex, ha, hb]

/-- A successfully parsed 2-character slice denotes a byte value. -/
theorem parseHex_pair_lt (p : List Char) (n : Nat) (hlen : p.length = 2)
    (h : parseHex p = some n) : n < 256 := by
  obtain ⟨a, b, rfl⟩ : ∃ a b, p = [a, b] := by
    rcases p with _ | ⟨a, _ | ⟨b, _ | ⟨c, t⟩⟩⟩
    · simp at hlen
    · simp at hlen
    · exact ⟨a, b, rfl⟩
    · simp only [List.length_cons] at hlen; omega
  rw [parseHex] at h
  simp only [List.isEmpty_cons, Bool.false_eq_true, if_false] at h
  split at h
  · rename_i hall
    simp only [List.all_cons, List.all_nil, Bool.and_eq_true, Bool.and_true] at hall
    have ha := hexDigitVal_lt a hall.1
    have hb := hexDigitVal_lt b hall.2
    simp only [List.foldl, Option.some_inj] at h
    omega
  · simp at h

set_option maxRecDepth 8192 in
/-- The source's per-byte string pipeline agrees with the spec's "eight
bits, least significant first" on every byte value. -/
theorem byteBits_eq_spec : ∀ n : Nat, n < 256 → byteBits n = specByteBits n := by
  decide

/-- A byte always expands to exactly 8 booleans. -/
theorem byteBits_len (n : Nat) (h : n < 256) : (byteBits n).length = 8 := by
  rw [byteBits_eq_spec n h]
  simp [specByteBits]

/-- The source's byte loop over 2-character slices agrees with the spec's
reference byte loop on even-length all-hex strings. -/
theorem from_hexBytes_pairs_eq_spec : ∀ (l : List Char), l.length % 2 = 0 →
    l.all isHexDigit = true → from_hexBytes (pairs l) = specBytes l := by
  intro l
  induction l using pairs.induct with
  | case1 => intro _ _; rfl
  | case2 c => intro h _; simp at h
  | case3 a b rest ih =>
      intro hlen hall
      simp only [List.all_cons, Bool.and_eq_true] at hall
      obtain ⟨ha, hb, hrest⟩ := hall
      have hrl : rest.length % 2 = 0 := by
        simp only [List.length_cons] at hlen; omega
      have hn := parseHex_pair a b ha hb
      have hvspec : parseHexSpecVal [a, b] = 16 * hexDigitVal a + hexDigitVal b := by
        simp [parseHexSpecVal]; ring
      have hnspec : parseHexSpec [a, b] = some (16 * hexDigitVal a + hexDigitVal b) := by
        simp [parseHexSpec, ha, hb, hvspec]
      have hlt : 16 * hexDigitVal a + hexDigitVal b < 256 := by
        have := hexDigitVal_lt a ha
        have := hexDigitVal_lt b hb
        omega
      show from_hexBytes ([a, b] :: pairs rest) = specBytes (a :: b :: rest)
      rw [from_hexBytes, specBytes, hn, hnspec, ih hrl hrest]
      cases specBytes rest with
      | none => rfl
      | some bits =>
          show some (byteBits (16 * hexDigitVal a + hexDigitVal b) ++ bits) =
            some (specByteBits (16 * hexDigitVal a + hexDigitVal b) ++ bits)
          rw [byteBits_eq_spec _ hlt]

/-- Whatever the byte loop returns on 2-character slices has length a
multiple of 8. -/
theorem from_hexBytes_length_mod : ∀ (bs : List (List Char)) (bits : List Bool),
    (∀ p ∈ bs, p.length = 2) → from_hexBytes bs = some bits →
    bits.length % 8 = 0 := by
  intro bs
  induction bs with
  | nil =>
      intro bits _ h
      simp only [from_hexBytes, Option.some_inj] at h
      simp [← h]
  | cons byte rest ih =>
      intro bits hlen h
      rw [from_hexBytes] at h
      cases hp : parseHex byte with
      | none => rw [hp] at h; simp at h
      | some n =>
          rw [hp] at h
          cases hr : from_hexBytes rest with
          | none => rw [hr] at h; simp at h
          | some bits2 =>
              rw [hr] at h
              simp only [Option.some_inj] at h
              have hn : n < 256 := parseHex_pair_lt byte n (hlen byte (by simp)) hp
              have h8 := byteBits_len n hn
              have hmod := ih bits2 (fun p hp2 => hlen p (by simp [hp2])) hr
              rw [← h]
              simp only [List.length_append, h8]
              omega

/-! ### Claim C3 (confirmed). -/

/-- Claim C3: on every hexadecimal input string `from_hex` equals the
spec's reference algorithm `from_hexSpec` (odd length: left-pad one zero;
then each 2-character byte left-to-right: parse base 16, render as 8-bit
zero-padded binary, reverse, map to booleans); every successful decode
has length a multiple of 8; and `from_hex "F8"` is the LSB-first bits of
0xF8. -/
theorem c3_from_hex_conformance :
    (∀ s : List Char, s.all isHexDigit = true → from_hex s = from_hexSpec s) ∧
    (∀ (s : List Char) (bits : List Bool), from_hex s = some bits →
      bits.length % 8 = 0) ∧
    from_hex ['F', '8'] =
      some [false, false, false, true, true, true, true, true] := by
  refine ⟨fun s hs => ?_, fun s bits h => ?_, by decide⟩
  · rw [from_hex, pad_eq, from_hexSpec]
    refine from_hexBytes_pairs_eq_spec _ (padded_even s) ?_
    rcases Nat.mod_two_eq_zero_or_one s.length with h2 | h2
    · simp only [h2]
      simpa using hs
    · simp only [h2, if_pos]
      simp only [List.all_cons, Bool.and_eq_true]
      exact ⟨by decide, hs⟩
  · rw [from_hex] at h
    refine from_hexBytes_length_mod _ _ (pairs_length_two _ ?_) h
    have hz : (zfill (s.length + s.length % 2) s).length = s.length + s.length % 2 := by
      simp only [zfill, List.length_append, List.length_replicate]
      omega
    rw [hz]
    omega

/-- Witness for C3 at the concrete input "F8". -/
theorem c3_from_hex_conformance_witness :
    from_hex ['F', '8'] = from_hexSpec ['F', '8'] ∧
    ([false, false, false, true, true, true, true, true] : List Bool).length % 8 = 0 :=
  ⟨c3_from_hex_conformance.1 ['F', '8'] (by decide),
    c3_from_hex_conformance.2.1 ['F', '8']
      [false, false, false, true, true, true, true, true] (by decide)⟩
